import Mathlib

/-!
Verification of the Okada line-of-sight notebook
(`okada_los_components.ipynb`).  The notebook normalizes fault parameters
into the geometry expected by the external `dc3dwrapper` solver, evaluates
the solver over a rectangular grid (rotating observation points into the
fault-aligned frame and the returned displacements back), and projects the
resulting displacement field onto a satellite pointing vector.  Angles are
real numbers in degrees, converted with `radians`; Python float division
is modelled as a fallible operation (`ZeroDivisionError` becomes `none`);
the external solver is an abstract function parameter.
-/

noncomputable section

namespace Okada

open Matrix

/-- Conversion from degrees to radians, as in Python `math.radians`. -/
def radians (d : ℝ) : ℝ := d * Real.pi / 180

/-- Python float division: raises `ZeroDivisionError` on a zero divisor,
modelled as `none`. -/
def pydiv (a b : ℝ) : Option ℝ := if b = 0 then none else some (a / b)

/-- The fault parameters of the notebook (cell 8): strike, dip, rake in
degrees, slip in meters, along-strike length, down-dip width, centroid
depth, and the reference point `(xs, ys)`. -/
structure FaultParams where
  strike : ℝ
  dip : ℝ
  rake : ℝ
  slip : ℝ
  as_length : ℝ
  dd_width : ℝ
  cd_depth : ℝ
  xs : ℝ
  ys : ℝ

/-- The derived fault geometry computed by the notebook (cells 10 and 12):
radial surface distance `rc`, centroid offsets `rcx`, `rcy`, centroid
coordinates `xc`, `yc`, strike-slip `ss` and dip-slip `ds`. -/
structure Geometry where
  rc : ℝ
  rcx : ℝ
  rcy : ℝ
  xc : ℝ
  yc : ℝ
  ss : ℝ
  ds : ℝ

/-- Geometry normalization (cells 10 and 12) with the tangent divisor
supplied explicitly: `rc = cd_depth / t`,
`rcx = rc * sin(radians (strike+90))`, `rcy = rc * cos(radians (strike+90))`,
centroid `(xs + rcx, ys + rcy)`, `ss = slip * cos(radians rake)`,
`ds = slip * sin(radians rake)`.  The division is Python division, so a
zero divisor aborts the run.  The program computes the divisor
`tan(radians(dip))` in floating point; factoring it out lets degenerate
dips be settled against the value the float program actually produces. -/
def normalizeWith (t : ℝ) (fp : FaultParams) : Option Geometry :=
  match pydiv fp.cd_depth t with
  | none => none
  | some rc =>
      some { rc := rc
             rcx := rc * Real.sin (radians (fp.strike + 90))
             rcy := rc * Real.cos (radians (fp.strike + 90))
             xc := fp.xs + rc * Real.sin (radians (fp.strike + 90))
             yc := fp.ys + rc * Real.cos (radians (fp.strike + 90))
             ss := fp.slip * Real.cos (radians fp.rake)
             ds := fp.slip * Real.sin (radians fp.rake) }

/-- Geometry normalization with the divisor read as the exact-real
tangent of the dip.  Caveat: this reading is faithful at every dip whose
tangent the float program computes with the same zeroness, in particular
at every dip in [0, 90); at dip = 90 it is NOT faithful to the float
program, because `radians 90` is exactly `π/2` where the real tangent is
singular (Mathlib assigns the junk value 0 there, which would trip
`pydiv`), whereas the float program evaluates the tangent at the double
nearest `π/2` (`float_radians_90` below) and obtains a finite nonzero
value.  The dip = 90 behavior of the program is therefore settled through
`normalizeWith` applied at that float-evaluated divisor, never through
the junk value. -/
def normalize (fp : FaultParams) : Option Geometry :=
  normalizeWith (Real.tan (radians fp.dip)) fp

/-- The exact value of the IEEE double `math.radians(90.0)` (which equals
the double `math.pi / 2`): the representable number nearest `π/2`, lying
strictly below it. -/
def float_radians_90 : ℝ := 884279719003555 / 2 ^ 49

/-- The matrix `R` of cell 14, built from the angle `strike - 90` degrees. -/
def R (strike : ℝ) : Matrix (Fin 2) (Fin 2) ℝ :=
  !![Real.cos (radians (strike - 90)), -Real.sin (radians (strike - 90));
     Real.sin (radians (strike - 90)), Real.cos (radians (strike - 90))]

/-- The forward coordinate transform `Q = R.dot(P)` of the grid loop,
written componentwise. -/
def rotate (strike : ℝ) (p : ℝ × ℝ) : ℝ × ℝ :=
  (Real.cos (radians (strike - 90)) * p.1 - Real.sin (radians (strike - 90)) * p.2,
   Real.sin (radians (strike - 90)) * p.1 + Real.cos (radians (strike - 90)) * p.2)

/-- The back-projection applied to the solver output in the grid loop:
`UX = u0*sin(strike) - u1*cos(strike)`, `UY = u0*cos(strike) - u1*sin(strike)`. -/
def backRotate (strike : ℝ) (u : ℝ × ℝ) : ℝ × ℝ :=
  (u.1 * Real.sin (radians strike) - u.2 * Real.cos (radians strike),
   u.1 * Real.cos (radians strike) - u.2 * Real.sin (radians strike))

/-- Result of one call to the external `dc3dwrapper` routine: a success
flag, the displacement vector `u`, and the displacement gradient (unused
downstream). -/
structure SolverResult where
  success : ℤ
  u : ℝ × ℝ × ℝ
  grad_u : Fin 3 → Fin 3 → ℝ

/-- Type of the external solver `dc3dwrapper`: arguments are `alpha`, the
observation point, the source depth, the dip, the along-strike extent
pair, the down-dip extent pair, and the dislocation vector. -/
def Solver : Type :=
  ℝ → ℝ × ℝ × ℝ → ℝ → ℝ → ℝ × ℝ → ℝ × ℝ → ℝ × ℝ × ℝ → SolverResult

/-- The solver invocation made by the grid loop at observation point
`(px, py)`: shift by the centroid, rotate by `R`, and call `dc3dwrapper`
with `alpha`, the rotated point at the surface, the centroid depth, the
dip, the half-extent pairs, and the dislocation vector `[ss, ds, 0]`. -/
def okadaCall (solver : Solver) (alpha : ℝ) (fp : FaultParams) (g : Geometry)
    (px py : ℝ) : SolverResult :=
  solver alpha
    ((rotate fp.strike (px - g.xc, py - g.yc)).1,
     (rotate fp.strike (px - g.xc, py - g.yc)).2, 0)
    fp.cd_depth fp.dip
    (-(fp.as_length / 2), fp.as_length / 2)
    (-(fp.dd_width / 2), fp.dd_width / 2)
    (g.ss, g.ds, 0)

/-- One iteration of the grid loop: call the solver, `assert(success == 0)`
(modelled as `none` on failure), and store the back-projected horizontal
components together with the unchanged vertical component. -/
def evalPoint (solver : Solver) (alpha : ℝ) (fp : FaultParams) (g : Geometry)
    (px py : ℝ) : Option (ℝ × ℝ × ℝ) :=
  if (okadaCall solver alpha fp g px py).success = 0 then
    some ((backRotate fp.strike ((okadaCall solver alpha fp g px py).u.1,
            (okadaCall solver alpha fp g px py).u.2.1)).1,
          (backRotate fp.strike ((okadaCall solver alpha fp g px py).u.1,
            (okadaCall solver alpha fp g px py).u.2.1)).2,
          (okadaCall solver alpha fp g px py).u.2.2)
  else none

/-- Sequential fail-fast traversal: evaluate `f` on each element in order,
aborting the whole computation at the first failure. -/
def mapOption {α β : Type} (f : α → Option β) : List α → Option (List β)
  | [] => some []
  | a :: as =>
      (f a).bind (fun b => Option.map (fun bs => b :: bs) (mapOption f as))

/-- The double grid loop of cell 16: outer loop over the `x` grid, inner
loop over the `y` grid, aborting the whole run on any solver failure. -/
def gridEval (solver : Solver) (alpha : ℝ) (fp : FaultParams) (g : Geometry)
    (xgrid ygrid : List ℝ) : Option (List (List (ℝ × ℝ × ℝ))) :=
  mapOption (fun px => mapOption (fun py => evalPoint solver alpha fp g px py) ygrid) xgrid

/-- The full pipeline: geometry normalization followed by grid evaluation. -/
def runPipeline (solver : Solver) (alpha : ℝ) (fp : FaultParams)
    (xgrid ygrid : List ℝ) : Option (List (List (ℝ × ℝ × ℝ))) :=
  (normalize fp).bind (fun g => gridEval solver alpha fp g xgrid ygrid)

/-- The pointing vector of cell 18:
`p = [sin(phi)sin(theta), -cos(phi)sin(theta), -cos(theta)]`. -/
def p_vec (theta phi : ℝ) : ℝ × ℝ × ℝ :=
  (Real.sin (radians phi) * Real.sin (radians theta),
   -Real.cos (radians phi) * Real.sin (radians theta),
   -Real.cos (radians theta))

/-- Elementwise scaling `np.multiply(A, c)` of cell 21. -/
def scaleGrid (A : List (List ℝ)) (c : ℝ) : List (List ℝ) :=
  A.map (fun row => row.map (fun v => v * c))

/-- Elementwise array addition of cell 21. -/
def addGrid (A B : List (List ℝ)) : List (List ℝ) :=
  List.zipWith (fun ra rb => List.zipWith (fun a b => a + b) ra rb) A B

/-- `ULOS = np.multiply(UX, px) + np.multiply(UY, py) + np.multiply(UZ, pz)`
(cell 21). -/
def ulosGrid (UX UY UZ : List (List ℝ)) (p : ℝ × ℝ × ℝ) : List (List ℝ) :=
  addGrid (addGrid (scaleGrid UX p.1) (scaleGrid UY p.2.1)) (scaleGrid UZ p.2.2)

/-- A constant successful solver used as a concrete instantiation. -/
def solverC : Solver := fun _ _ _ _ _ _ _ => ⟨0, (5, 7, 11), fun _ _ => 0⟩

/-- A constant failing solver used as a concrete instantiation. -/
def solverFail : Solver := fun _ _ _ _ _ _ _ => ⟨1, (0, 0, 0), fun _ _ => 0⟩

/-- A constant successful solver returning the zero displacement. -/
def solverZ : Solver := fun _ _ _ _ _ _ _ => ⟨0, (0, 0, 0), fun _ _ => 0⟩

/-- A concrete fault with zero slip, strike 90, dip 45, unit depth. -/
def fpW : FaultParams :=
  { strike := 90, dip := 45, rake := 0, slip := 0, as_length := 1,
    dd_width := 1, cd_depth := 1, xs := 0, ys := 0 }

/-- The geometry the notebook derives from `fpW`. -/
def gW : Geometry :=
  { rc := 1 / Real.tan (radians 45)
    rcx := 1 / Real.tan (radians 45) * Real.sin (radians (90 + 90))
    rcy := 1 / Real.tan (radians 45) * Real.cos (radians (90 + 90))
    xc := 0 + 1 / Real.tan (radians 45) * Real.sin (radians (90 + 90))
    yc := 0 + 1 / Real.tan (radians 45) * Real.cos (radians (90 + 90))
    ss := 0 * Real.cos (radians 0)
    ds := 0 * Real.sin (radians 0) }

/-- A concrete fault with the degenerate dip 0. -/
def fpDeg : FaultParams :=
  { strike := 0, dip := 0, rake := 0, slip := 1, as_length := 1,
    dd_width := 1, cd_depth := 6000, xs := 0, ys := 0 }

/-- The reference fault parameters with the degenerate dip 90. -/
def fp90 : FaultParams :=
  { strike := 1, dip := 90, rake := -1, slip := 2, as_length := 15000,
    dd_width := 10000, cd_depth := 6000, xs := 0, ys := 0 }

/-- The geometry the float program derives at dip = 90, where the divisor
is the tangent evaluated at the double `math.radians(90.0)`. -/
def g90 : Geometry :=
  { rc := 6000 / Real.tan float_radians_90
    rcx := 6000 / Real.tan float_radians_90 * Real.sin (radians (1 + 90))
    rcy := 6000 / Real.tan float_radians_90 * Real.cos (radians (1 + 90))
    xc := 0 + 6000 / Real.tan float_radians_90 * Real.sin (radians (1 + 90))
    yc := 0 + 6000 / Real.tan float_radians_90 * Real.cos (radians (1 + 90))
    ss := 2 * Real.cos (radians (-1))
    ds := 2 * Real.sin (radians (-1)) }

/-- The cell stored by the grid loop for `fpW` under the zero solver. -/
def wcell : ℝ × ℝ × ℝ :=
  ((0 : ℝ) * Real.sin (radians 90) - 0 * Real.cos (radians 90),
   (0 : ℝ) * Real.cos (radians 90) - 0 * Real.sin (radians 90), 0)

/-- The reference fault parameters of cell 8: strike 1, dip 85, rake -1,
slip 2, length 15000, width 10000, depth 6000, reference point (0, 0). -/
def fpRef : FaultParams :=
  { strike := 1, dip := 85, rake := -1, slip := 2, as_length := 15000,
    dd_width := 10000, cd_depth := 6000, xs := 0, ys := 0 }

/-- The geometry the notebook derives from the reference parameters. -/
def gRef : Geometry :=
  { rc := 6000 / Real.tan (radians 85)
    rcx := 6000 / Real.tan (radians 85) * Real.sin (radians (1 + 90))
    rcy := 6000 / Real.tan (radians 85) * Real.cos (radians (1 + 90))
    xc := 0 + 6000 / Real.tan (radians 85) * Real.sin (radians (1 + 90))
    yc := 0 + 6000 / Real.tan (radians 85) * Real.cos (radians (1 + 90))
    ss := 2 * Real.cos (radians (-1))
    ds := 2 * Real.sin (radians (-1)) }

/-! ### Helper lemmas -/

/-- When the supplied divisor is nonzero, normalization succeeds and
returns exactly the notebook's formulas. -/
lemma normalizeWith_eq_some (t : ℝ) (fp : FaultParams) (h : t ≠ 0) :
    normalizeWith t fp =
      some { rc := fp.cd_depth / t
             rcx := fp.cd_depth / t * Real.sin (radians (fp.strike + 90))
             rcy := fp.cd_depth / t * Real.cos (radians (fp.strike + 90))
             xc := fp.xs + fp.cd_depth / t * Real.sin (radians (fp.strike + 90))
             yc := fp.ys + fp.cd_depth / t * Real.cos (radians (fp.strike + 90))
             ss := fp.slip * Real.cos (radians fp.rake)
             ds := fp.slip * Real.sin (radians fp.rake) } := by
  unfold normalizeWith pydiv
  rw [if_neg h]

/-- When the tangent of the dip is nonzero, normalization succeeds and
returns exactly the notebook's formulas. -/
lemma normalize_eq_some (fp : FaultParams)
    (h : Real.tan (radians fp.dip) ≠ 0) :
    normalize fp =
      some { rc := fp.cd_depth / Real.tan (radians fp.dip)
             rcx := fp.cd_depth / Real.tan (radians fp.dip) *
               Real.sin (radians (fp.strike + 90))
             rcy := fp.cd_depth / Real.tan (radians fp.dip) *
               Real.cos (radians (fp.strike + 90))
             xc := fp.xs + fp.cd_depth / Real.tan (radians fp.dip) *
               Real.sin (radians (fp.strike + 90))
             yc := fp.ys + fp.cd_depth / Real.tan (radians fp.dip) *
               Real.cos (radians (fp.strike + 90))
             ss := fp.slip * Real.cos (radians fp.rake)
             ds := fp.slip * Real.sin (radians fp.rake) } :=
  normalizeWith_eq_some (Real.tan (radians fp.dip)) fp h

/-- The double `math.radians(90.0)` lies strictly below `π/2`, so the real
tangent there is positive (and in particular the float program's divisor
at dip 90 is finite and nonzero). -/
lemma tan_float_radians_90_pos : 0 < Real.tan float_radians_90 := by
  apply Real.tan_pos_of_pos_of_lt_pi_div_two
  · unfold float_radians_90
    norm_num
  · have hpi := Real.pi_gt_d20
    have h : (884279719003555 : ℝ) / 2 ^ 49 < 3.14159265358979323846 / 2 := by
      norm_num
    unfold float_radians_90
    linarith

/-- The tangent of `radians 45` is nonzero. -/
lemma tan_radians_45_ne : Real.tan (radians 45) ≠ 0 := by
  have h45 : radians 45 = Real.pi / 4 := by unfold radians; ring
  rw [h45, Real.tan_pi_div_four]
  exact one_ne_zero

/-- Normalizing `fpW` yields `gW`. -/
lemma normalize_fpW : normalize fpW = some gW :=
  normalize_eq_some fpW tan_radians_45_ne

/-- A fail-fast traversal aborts as soon as any element fails. -/
lemma mapOption_none_of_mem {α β : Type} (f : α → Option β) {l : List α} {a : α}
    (ha : a ∈ l) (hf : f a = none) : mapOption f l = none := by
  induction l with
  | nil => simp at ha
  | cons x xs ih =>
      rcases List.mem_cons.mp ha with h | h
      · rw [h] at hf
        simp [mapOption, hf]
      · cases hx : f x <;> simp [mapOption, hx, ih h]

/-- A fail-fast traversal over elements that all succeed returns a list of
the same length. -/
lemma mapOption_isSome_of {α β : Type} (f : α → Option β) {l : List α}
    (h : ∀ a ∈ l, (f a).isSome = true) :
    ∃ bs, mapOption f l = some bs ∧ bs.length = l.length := by
  induction l with
  | nil => exact ⟨[], rfl, rfl⟩
  | cons x xs ih =>
      obtain ⟨bs, hbs, hlen⟩ := ih (fun a ha => h a (List.mem_cons_of_mem x ha))
      obtain ⟨b, hb⟩ := Option.isSome_iff_exists.mp (h x (List.mem_cons_self x xs))
      exact ⟨b :: bs, by simp [mapOption, hb, hbs], by simp [hlen]⟩

/-- Every element of the output of a successful fail-fast traversal comes
from some input element. -/
lemma mapOption_mem {α β : Type} (f : α → Option β) : ∀ {l : List α} {bs : List β},
    mapOption f l = some bs → ∀ {b : β}, b ∈ bs → ∃ a ∈ l, f a = some b := by
  intro l
  induction l with
  | nil =>
      intro bs h b hb
      simp only [mapOption, Option.some.injEq] at h
      rw [← h] at hb
      simp at hb
  | cons x xs ih =>
      intro bs h b hb
      simp only [mapOption, Option.bind_eq_some, Option.map_eq_some'] at h
      obtain ⟨c, hc, cs, hcs, rfl⟩ := h
      rcases List.mem_cons.mp hb with h1 | h1
      · exact ⟨x, List.mem_cons_self x xs, by rw [hc, h1]⟩
      · obtain ⟨a, ha, hfa⟩ := ih hcs h1
        exact ⟨a, List.mem_cons_of_mem x ha, hfa⟩

/-- A successful fail-fast traversal preserves length. -/
lemma mapOption_length {α β : Type} (f : α → Option β) : ∀ {l : List α} {bs : List β},
    mapOption f l = some bs → bs.length = l.length := by
  intro l
  induction l with
  | nil =>
      intro bs h
      simp only [mapOption, Option.some.injEq] at h
      rw [← h]
      rfl
  | cons x xs ih =>
      intro bs h
      simp only [mapOption, Option.bind_eq_some, Option.map_eq_some'] at h
      obtain ⟨c, hc, cs, hcs, rfl⟩ := h
      simp [ih hcs]

/-- Numeric bounds on one degree in radians. -/
lemma radians_one_bounds : 0.0174532 < radians 1 ∧ radians 1 < 0.0174533 := by
  unfold radians
  constructor <;> nlinarith [Real.pi_gt_d6, Real.pi_lt_d6]

/-- Numeric bounds on five degrees in radians. -/
lemma radians_five_bounds : 0.0872664 < radians 5 ∧ radians 5 < 0.0872665 := by
  unfold radians
  constructor <;> nlinarith [Real.pi_gt_d6, Real.pi_lt_d6]

/-- Numeric bounds on the sine of one degree. -/
lemma sin_radians_one_bounds :
    0.017452 < Real.sin (radians 1) ∧ Real.sin (radians 1) < 0.0174525 := by
  obtain ⟨hl, hh⟩ := radians_one_bounds
  have hx0 : (0 : ℝ) < radians 1 := by linarith
  have habs : |radians 1| ≤ 1 := by
    rw [abs_of_pos hx0]
    linarith
  have hb := Real.sin_bound habs
  rw [abs_of_pos hx0, abs_le] at hb
  have h3u : radians 1 ^ 3 < 0.0174533 ^ 3 := pow_lt_pow_left₀ hh hx0.le (by norm_num)
  have h3l : (0.0174532 : ℝ) ^ 3 < radians 1 ^ 3 :=
    pow_lt_pow_left₀ hl (by norm_num) (by norm_num)
  have h4u : radians 1 ^ 4 < 0.0174533 ^ 4 := pow_lt_pow_left₀ hh hx0.le (by norm_num)
  constructor
  · nlinarith [hb.1]
  · nlinarith [hb.2]

/-- Numeric bounds on the cosine of one degree. -/
lemma cos_radians_one_bounds :
    0.9998476 < Real.cos (radians 1) ∧ Real.cos (radians 1) < 0.9998478 := by
  obtain ⟨hl, hh⟩ := radians_one_bounds
  have hx0 : (0 : ℝ) < radians 1 := by linarith
  have habs : |radians 1| ≤ 1 := by
    rw [abs_of_pos hx0]
    linarith
  have hb := Real.cos_bound habs
  rw [abs_of_pos hx0, abs_le] at hb
  have h2u : radians 1 ^ 2 < 0.0174533 ^ 2 := pow_lt_pow_left₀ hh hx0.le (by norm_num)
  have h2l : (0.0174532 : ℝ) ^ 2 < radians 1 ^ 2 :=
    pow_lt_pow_left₀ hl (by norm_num) (by norm_num)
  have h4u : radians 1 ^ 4 < 0.0174533 ^ 4 := pow_lt_pow_left₀ hh hx0.le (by norm_num)
  constructor
  · nlinarith [hb.1]
  · nlinarith [hb.2]

/-- Numeric bounds on the sine of five degrees. -/
lemma sin_radians_five_bounds :
    0.087152 < Real.sin (radians 5) ∧ Real.sin (radians 5) < 0.087159 := by
  obtain ⟨hl, hh⟩ := radians_five_bounds
  have hx0 : (0 : ℝ) < radians 5 := by linarith
  have habs : |radians 5| ≤ 1 := by
    rw [abs_of_pos hx0]
    linarith
  have hb := Real.sin_bound habs
  rw [abs_of_pos hx0, abs_le] at hb
  have h3u : radians 5 ^ 3 < 0.0872665 ^ 3 := pow_lt_pow_left₀ hh hx0.le (by norm_num)
  have h3l : (0.0872664 : ℝ) ^ 3 < radians 5 ^ 3 :=
    pow_lt_pow_left₀ hl (by norm_num) (by norm_num)
  have h4u : radians 5 ^ 4 < 0.0872665 ^ 4 := pow_lt_pow_left₀ hh hx0.le (by norm_num)
  constructor
  · nlinarith [hb.1]
  · nlinarith [hb.2]

/-- Numeric bounds on the cosine of five degrees. -/
lemma cos_radians_five_bounds :
    0.996185 < Real.cos (radians 5) ∧ Real.cos (radians 5) < 0.996196 := by
  obtain ⟨hl, hh⟩ := radians_five_bounds
  have hx0 : (0 : ℝ) < radians 5 := by linarith
  have habs : |radians 5| ≤ 1 := by
    rw [abs_of_pos hx0]
    linarith
  have hb := Real.cos_bound habs
  rw [abs_of_pos hx0, abs_le] at hb
  have h2u : radians 5 ^ 2 < 0.0872665 ^ 2 := pow_lt_pow_left₀ hh hx0.le (by norm_num)
  have h2l : (0.0872664 : ℝ) ^ 2 < radians 5 ^ 2 :=
    pow_lt_pow_left₀ hl (by norm_num) (by norm_num)
  have h4u : radians 5 ^ 4 < 0.0872665 ^ 4 := pow_lt_pow_left₀ hh hx0.le (by norm_num)
  constructor
  · nlinarith [hb.1]
  · nlinarith [hb.2]

/-- Numeric bounds on the tangent of five degrees. -/
lemma tan_radians_five_bounds :
    0.08748 < Real.tan (radians 5) ∧ Real.tan (radians 5) < 0.08750 := by
  obtain ⟨hs1, hs2⟩ := sin_radians_five_bounds
  obtain ⟨hc1, hc2⟩ := cos_radians_five_bounds
  have hcpos : 0 < Real.cos (radians 5) := by linarith
  rw [Real.tan_eq_sin_div_cos]
  constructor
  · rw [lt_div_iff₀ hcpos]
    linarith
  · rw [div_lt_iff₀ hcpos]
    linarith

/-- The tangent of 85 degrees is positive (85 degrees lies in the first
quadrant). -/
lemma tan_radians_85_pos : 0 < Real.tan (radians 85) := by
  have hpi := Real.pi_pos
  apply Real.tan_pos_of_pos_of_lt_pi_div_two
  · unfold radians
    nlinarith
  · unfold radians
    nlinarith

/-- Normalizing the reference parameters yields `gRef`. -/
lemma normalize_fpRef : normalize fpRef = some gRef :=
  normalize_eq_some fpRef tan_radians_85_pos.ne'

/-- The radial distance for the reference fault as a tangent of the
complementary angle. -/
lemma gRef_rc_eq : gRef.rc = 6000 * Real.tan (radians 5) := by
  show (6000 : ℝ) / Real.tan (radians 85) = 6000 * Real.tan (radians 5)
  have h85 : radians 85 = Real.pi / 2 - radians 5 := by
    unfold radians
    ring
  rw [h85, Real.tan_pi_div_two_sub, div_eq_mul_inv, inv_inv]

/-- Numeric bounds on the reference radial distance. -/
lemma rc_bounds : 524.8 < gRef.rc ∧ gRef.rc < 525 := by
  obtain ⟨h1, h2⟩ := tan_radians_five_bounds
  rw [gRef_rc_eq]
  constructor <;> linarith

/-- The sine at 91 degrees is the cosine at 1 degree. -/
lemma sin_radians_91 : Real.sin (radians (1 + 90)) = Real.cos (radians 1) := by
  have h : radians (1 + 90) = Real.pi / 2 + radians 1 := by
    unfold radians
    ring
  rw [h, Real.sin_add, Real.sin_pi_div_two, Real.cos_pi_div_two]
  ring

/-- The cosine at 91 degrees is minus the sine at 1 degree. -/
lemma cos_radians_91 : Real.cos (radians (1 + 90)) = -Real.sin (radians 1) := by
  have h : radians (1 + 90) = Real.pi / 2 + radians 1 := by
    unfold radians
    ring
  rw [h, Real.cos_add, Real.sin_pi_div_two, Real.cos_pi_div_two]
  ring

/-- Numeric bounds on the reference centroid x coordinate. -/
lemma xc_bounds : 524.7 < gRef.xc ∧ gRef.xc < 525 := by
  have hrc := rc_bounds
  have hc := cos_radians_one_bounds
  have hxc : gRef.xc = gRef.rc * Real.cos (radians 1) := by
    show (0 : ℝ) + 6000 / Real.tan (radians 85) * Real.sin (radians (1 + 90)) =
      6000 / Real.tan (radians 85) * Real.cos (radians 1)
    rw [sin_radians_91]
    ring
  rw [hxc]
  constructor
  · nlinarith [hrc.1, hrc.2, hc.1, hc.2]
  · nlinarith [hrc.1, hrc.2, hc.1, hc.2]

/-- Numeric bounds on the reference centroid y coordinate. -/
lemma yc_bounds : -9.17 < gRef.yc ∧ gRef.yc < -9.15 := by
  have hrc := rc_bounds
  have hs := sin_radians_one_bounds
  have hyc : gRef.yc = -(gRef.rc * Real.sin (radians 1)) := by
    show (0 : ℝ) + 6000 / Real.tan (radians 85) * Real.cos (radians (1 + 90)) =
      -(6000 / Real.tan (radians 85) * Real.sin (radians 1))
    rw [cos_radians_91]
    ring
  rw [hyc]
  constructor
  · nlinarith [hrc.1, hrc.2, hs.1, hs.2]
  · nlinarith [hrc.1, hrc.2, hs.1, hs.2]

/-- Numeric bounds on the reference strike-slip component. -/
lemma ss_bounds : 1.9996 < gRef.ss ∧ gRef.ss < 1.9998 := by
  have hc := cos_radians_one_bounds
  have hss : gRef.ss = 2 * Real.cos (radians 1) := by
    show (2 : ℝ) * Real.cos (radians (-1)) = 2 * Real.cos (radians 1)
    have h : radians (-1) = -radians 1 := by
      unfold radians
      ring
    rw [h, Real.cos_neg]
  rw [hss]
  constructor <;> linarith

/-- Numeric bounds on the reference dip-slip component. -/
lemma ds_bounds : -0.03491 < gRef.ds ∧ gRef.ds < -0.03490 := by
  have hs := sin_radians_one_bounds
  have hds : gRef.ds = -(2 * Real.sin (radians 1)) := by
    show (2 : ℝ) * Real.sin (radians (-1)) = -(2 * Real.sin (radians 1))
    have h : radians (-1) = -radians 1 := by
      unfold radians
      ring
    rw [h, Real.sin_neg]
    ring
  rw [hds]
  constructor <;> linarith

/-- Cell value of the triple elementwise combination on a single row. -/
lemma ulos_row : ∀ (rx ry rz : List ℝ) (p1 p2 p3 : ℝ) (j : ℕ),
    ry.length = rx.length → rz.length = rx.length → j < rx.length →
    (List.zipWith (fun a b => a + b)
        (List.zipWith (fun a b => a + b)
          (rx.map (fun v => v * p1)) (ry.map (fun v => v * p2)))
        (rz.map (fun v => v * p3))).getD j 0 =
      rx.getD j 0 * p1 + ry.getD j 0 * p2 + rz.getD j 0 * p3 := by
  intro rx
  induction rx with
  | nil =>
      intro ry rz p1 p2 p3 j hy hz hj
      exact absurd hj (by simp)
  | cons x txs ih =>
      intro ry rz p1 p2 p3 j hy hz hj
      cases ry with
      | nil => simp at hy
      | cons y tys =>
          cases rz with
          | nil => simp at hz
          | cons z tzs =>
              cases j with
              | zero => simp
              | succ j =>
                  simpa using ih tys tzs p1 p2 p3 j
                    (by simpa using hy) (by simpa using hz) (by simpa using hj)

/-- Row extraction from the `ULOS` combination. -/
lemma ulos_grid_row : ∀ (UX UY UZ : List (List ℝ)) (p1 p2 p3 : ℝ) (i : ℕ),
    UY.length = UX.length → UZ.length = UX.length → i < UX.length →
    (ulosGrid UX UY UZ (p1, p2, p3)).getD i [] =
      List.zipWith (fun a b => a + b)
        (List.zipWith (fun a b => a + b)
          ((UX.getD i []).map (fun v => v * p1))
          ((UY.getD i []).map (fun v => v * p2)))
        ((UZ.getD i []).map (fun v => v * p3)) := by
  intro UX
  induction UX with
  | nil =>
      intro UY UZ p1 p2 p3 i hY hZ hi
      exact absurd hi (by simp)
  | cons r rs ih =>
      intro UY UZ p1 p2 p3 i hY hZ hi
      cases UY with
      | nil => simp at hY
      | cons s us =>
          cases UZ with
          | nil => simp at hZ
          | cons t vs =>
              cases i with
              | zero => simp [ulosGrid, addGrid, scaleGrid]
              | succ i =>
                  simpa [ulosGrid, addGrid, scaleGrid] using
                    ih us vs p1 p2 p3 i
                      (by simpa using hY) (by simpa using hZ) (by simpa using hi)

/-! ### Claims -/

/-- Claim C7: for every incidence angle `theta` and pointing azimuth `phi`,
the pointing vector `(sin(phi)sin(theta), -cos(phi)sin(theta), -cos(theta))`
computed by the notebook has unit norm. -/
theorem p_vec_unit_norm (theta phi : ℝ) :
    (p_vec theta phi).1 ^ 2 + (p_vec theta phi).2.1 ^ 2 +
      (p_vec theta phi).2.2 ^ 2 = 1 := by
  unfold p_vec
  simp only
  linear_combination (Real.sin (radians theta)) ^ 2 *
      Real.sin_sq_add_cos_sq (radians phi) +
    Real.sin_sq_add_cos_sq (radians theta)

/-- Claim C10: for every strike, the matrix `R` built from the angle
`strike - 90` degrees satisfies `Rᵀ * R = 1` and `det R = 1` over exact
real arithmetic, so the forward transform is invertible with inverse
`Rᵀ`. -/
theorem R_orthogonal (strike : ℝ) :
    (R strike)ᵀ * R strike = 1 ∧ (R strike).det = 1 := by
  have hs := Real.sin_sq_add_cos_sq (radians (strike - 90))
  have ht : (R strike)ᵀ =
      !![Real.cos (radians (strike - 90)), Real.sin (radians (strike - 90));
         -Real.sin (radians (strike - 90)), Real.cos (radians (strike - 90))] := by
    unfold R
    ext i j
    fin_cases i <;> fin_cases j <;> simp
  constructor
  · rw [ht]
    unfold R
    rw [Matrix.mul_fin_two, Matrix.one_fin_two]
    rw [show Real.cos (radians (strike - 90)) * Real.cos (radians (strike - 90)) +
          Real.sin (radians (strike - 90)) * Real.sin (radians (strike - 90)) = 1 from by
        linear_combination hs,
      show Real.cos (radians (strike - 90)) * -Real.sin (radians (strike - 90)) +
          Real.sin (radians (strike - 90)) * Real.cos (radians (strike - 90)) = 0 from by
        ring,
      show -Real.sin (radians (strike - 90)) * Real.cos (radians (strike - 90)) +
          Real.cos (radians (strike - 90)) * Real.sin (radians (strike - 90)) = 0 from by
        ring,
      show -Real.sin (radians (strike - 90)) * -Real.sin (radians (strike - 90)) +
          Real.cos (radians (strike - 90)) * Real.cos (radians (strike - 90)) = 1 from by
        linear_combination hs]
  · unfold R
    rw [Matrix.det_fin_two_of]
    linear_combination hs

/-- Claim C1, counterexample: at strike 90 degrees the back-projection of
the grid loop is not the inverse of the forward transform: the vector
`(0, 1)` round-trips to `(0, -1)`. -/
theorem roundtrip_fails_at_90 :
    backRotate 90 (rotate 90 ((0 : ℝ), (1 : ℝ))) ≠ ((0 : ℝ), (1 : ℝ)) := by
  have h0 : radians (90 - 90) = 0 := by unfold radians; ring
  have h90 : radians 90 = Real.pi / 2 := by unfold radians; ring
  have hv : backRotate 90 (rotate 90 ((0 : ℝ), (1 : ℝ))) = ((0 : ℝ), (-1 : ℝ)) := by
    unfold backRotate rotate
    rw [h0, h90]
    norm_num [Real.sin_pi_div_two, Real.cos_pi_div_two]
  rw [hv]
  intro h
  have h2 := congrArg Prod.snd h
  norm_num at h2

/-- Claim C1, amended: the round trip preserves the east component for
every strike and vector, but the north component comes back as
`u0*sin(2*strike) + u1*cos(2*strike)`; the two transforms are mutual
inverses only when the strike is a multiple of 180 degrees. -/
theorem roundtrip_characterization (strike : ℝ) (v : ℝ × ℝ) :
    backRotate strike (rotate strike v) =
      (v.1, v.1 * Real.sin (2 * radians strike) +
        v.2 * Real.cos (2 * radians strike)) := by
  have hsub : radians (strike - 90) = radians strike - Real.pi / 2 := by
    unfold radians; ring
  have hs := Real.sin_sq_add_cos_sq (radians strike)
  unfold backRotate rotate
  rw [hsub, Real.sin_sub_pi_div_two, Real.cos_sub_pi_div_two,
    Real.sin_two_mul, Real.cos_two_mul]
  rw [Prod.mk.injEq]
  constructor
  · linear_combination v.1 * hs
  · linear_combination (-v.2) * hs

/-- Claim C2: whenever the solver reports success at a grid point, the
stored components are exactly `UX = u0*sin(strike) - u1*cos(strike)`,
`UY = u0*cos(strike) - u1*sin(strike)`, and `UZ = u2` unchanged. -/
theorem evalPoint_stores_formulas (solver : Solver) (alpha : ℝ)
    (fp : FaultParams) (g : Geometry) (px py : ℝ)
    (h : (okadaCall solver alpha fp g px py).success = 0) :
    evalPoint solver alpha fp g px py =
      some ((okadaCall solver alpha fp g px py).u.1 * Real.sin (radians fp.strike) -
              (okadaCall solver alpha fp g px py).u.2.1 * Real.cos (radians fp.strike),
            (okadaCall solver alpha fp g px py).u.1 * Real.cos (radians fp.strike) -
              (okadaCall solver alpha fp g px py).u.2.1 * Real.sin (radians fp.strike),
            (okadaCall solver alpha fp g px py).u.2.2) := by
  unfold evalPoint
  rw [if_pos h]
  rfl

/-- Claim C2, witness: concrete evaluation under a constant solver. -/
theorem evalPoint_stores_formulas_witness :
    (okadaCall solverC 1 fpW gW 0 0).success = 0 ∧
    evalPoint solverC 1 fpW gW 0 0 =
      some ((5 : ℝ) * Real.sin (radians 90) - 7 * Real.cos (radians 90),
            (5 : ℝ) * Real.cos (radians 90) - 7 * Real.sin (radians 90),
            (11 : ℝ)) := by
  refine ⟨rfl, ?_⟩
  exact evalPoint_stores_formulas solverC 1 fpW gW 0 0 rfl

/-- Claim C6: for dip strictly between 0 and 90 degrees, geometry
normalization computes exactly `rc = depth / tan(dip)`,
`rcx = rc*sin(strike+90)`, `rcy = rc*cos(strike+90)`, centroid =
reference point + offsets, `ss = slip*cos(rake)`, `ds = slip*sin(rake)`. -/
theorem normalize_computes_formulas (fp : FaultParams) (g : Geometry)
    (h1 : 0 < fp.dip) (h2 : fp.dip < 90) (hg : normalize fp = some g) :
    g.rc = fp.cd_depth / Real.tan (radians fp.dip) ∧
    g.rcx = g.rc * Real.sin (radians (fp.strike + 90)) ∧
    g.rcy = g.rc * Real.cos (radians (fp.strike + 90)) ∧
    g.xc = fp.xs + g.rcx ∧
    g.yc = fp.ys + g.rcy ∧
    g.ss = fp.slip * Real.cos (radians fp.rake) ∧
    g.ds = fp.slip * Real.sin (radians fp.rake) := by
  have hpi := Real.pi_pos
  have hr0 : 0 < radians fp.dip := by
    unfold radians
    nlinarith [mul_pos h1 hpi]
  have hr2 : radians fp.dip < Real.pi / 2 := by
    unfold radians
    nlinarith [mul_pos (sub_pos.mpr h2) hpi]
  have ht : Real.tan (radians fp.dip) ≠ 0 :=
    (Real.tan_pos_of_pos_of_lt_pi_div_two hr0 hr2).ne'
  rw [normalize_eq_some fp ht] at hg
  simp only [Option.some.injEq] at hg
  rw [← hg]
  exact ⟨rfl, rfl, rfl, rfl, rfl, rfl, rfl⟩

/-- Claim C6, witness: concrete normalization of `fpW` (dip 45). -/
theorem normalize_computes_formulas_witness :
    (0 : ℝ) < fpW.dip ∧ fpW.dip < 90 ∧ normalize fpW = some gW ∧
    (gW.rc = fpW.cd_depth / Real.tan (radians fpW.dip) ∧
     gW.rcx = gW.rc * Real.sin (radians (fpW.strike + 90)) ∧
     gW.rcy = gW.rc * Real.cos (radians (fpW.strike + 90)) ∧
     gW.xc = fpW.xs + gW.rcx ∧
     gW.yc = fpW.ys + gW.rcy ∧
     gW.ss = fpW.slip * Real.cos (radians fpW.rake) ∧
     gW.ds = fpW.slip * Real.sin (radians fpW.rake)) := by
  have hd1 : (0 : ℝ) < fpW.dip := by
    show (0 : ℝ) < 45
    norm_num
  have hd2 : fpW.dip < 90 := by
    show (45 : ℝ) < 90
    norm_num
  exact ⟨hd1, hd2, normalize_fpW,
    normalize_computes_formulas fpW gW hd1 hd2 normalize_fpW⟩

/-- Claim C8, counterexample: at dip = 90 the program does not report an
invalid-geometry error.  The float program evaluates the divisor
`tan(radians(90))` at the double `float_radians_90`, which lies strictly
below `π/2`, so the tangent there is positive; normalization therefore
succeeds on the reference fault with dip 90 and grid evaluation proceeds
and completes, refuting the claimed fail-fast at dip = 90. -/
theorem dip90_no_failure :
    0 < Real.tan float_radians_90 ∧
    normalizeWith (Real.tan float_radians_90) fp90 = some g90 ∧
    (gridEval solverC 1 fp90 g90 [0] [0]).isSome = true :=
  ⟨tan_float_radians_90_pos,
   normalizeWith_eq_some (Real.tan float_radians_90) fp90
     tan_float_radians_90_pos.ne',
   rfl⟩

/-- Claim C8, amended: only dip = 0 produces the fail-fast invalid-geometry
error: there the tangent is exactly zero (in floats as in exact reals),
the Python division raises, and the pipeline aborts before grid evaluation
with no output; at dip = 90 the float-evaluated tangent divisor is nonzero
and normalization succeeds, so the run proceeds without error. -/
theorem degenerate_dip_amended :
    (∀ fp : FaultParams, fp.dip = 0 →
      normalize fp = none ∧
      ∀ (solver : Solver) (alpha : ℝ) (xgrid ygrid : List ℝ),
        runPipeline solver alpha fp xgrid ygrid = none) ∧
    normalizeWith (Real.tan float_radians_90) fp90 = some g90 := by
  constructor
  · intro fp h
    have htan : Real.tan (radians fp.dip) = 0 := by
      rw [h, show radians (0 : ℝ) = 0 from by unfold radians; ring, Real.tan_zero]
    have hnorm : normalize fp = none := by
      unfold normalize normalizeWith pydiv
      rw [if_pos htan]
    refine ⟨hnorm, fun solver alpha xgrid ygrid => ?_⟩
    unfold runPipeline
    rw [hnorm]
    rfl
  · exact normalizeWith_eq_some (Real.tan float_radians_90) fp90
      tan_float_radians_90_pos.ne'

/-- Claim C8, witness: the concrete fault `fpDeg` with dip 0 aborts the
pipeline. -/
theorem degenerate_dip_amended_witness :
    normalize fpDeg = none ∧ runPipeline solverC 1 fpDeg [0] [0] = none := by
  have h := degenerate_dip_amended.1 fpDeg rfl
  exact ⟨h.1, h.2 solverC 1 [0] [0]⟩

/-- Claim C4: if the solver reports non-success at any grid point, the grid
evaluation aborts with no output surfaced; if it reports success at every
grid point, the evaluation completes with the full grid of results
populated (one row per x value, one cell per y value). -/
theorem gridEval_contract (solver : Solver) (alpha : ℝ) (fp : FaultParams)
    (g : Geometry) (xgrid ygrid : List ℝ) :
    ((∃ px ∈ xgrid, ∃ py ∈ ygrid,
        (okadaCall solver alpha fp g px py).success ≠ 0) →
      gridEval solver alpha fp g xgrid ygrid = none) ∧
    ((∀ px ∈ xgrid, ∀ py ∈ ygrid,
        (okadaCall solver alpha fp g px py).success = 0) →
      ∃ out, gridEval solver alpha fp g xgrid ygrid = some out ∧
        out.length = xgrid.length ∧
        ∀ row ∈ out, row.length = ygrid.length) := by
  constructor
  · rintro ⟨px, hpx, py, hpy, hfail⟩
    have hpt : evalPoint solver alpha fp g px py = none := by
      unfold evalPoint
      rw [if_neg hfail]
    have hrow : mapOption (fun py2 => evalPoint solver alpha fp g px py2) ygrid = none :=
      mapOption_none_of_mem _ hpy hpt
    exact mapOption_none_of_mem _ hpx hrow
  · intro hall
    have hin : ∀ px ∈ xgrid,
        (mapOption (fun py => evalPoint solver alpha fp g px py) ygrid).isSome = true := by
      intro px hpx
      have h1 : ∀ py ∈ ygrid,
          (evalPoint solver alpha fp g px py).isSome = true := by
        intro py hpy
        unfold evalPoint
        rw [if_pos (hall px hpx py hpy)]
        rfl
      obtain ⟨row, hrow, -⟩ := mapOption_isSome_of _ h1
      simp [hrow]
    obtain ⟨out, hout, hlen⟩ := mapOption_isSome_of _ hin
    refine ⟨out, hout, hlen, ?_⟩
    intro row hr
    obtain ⟨px, hpx, hrowq⟩ := mapOption_mem _ hout hr
    exact mapOption_length _ hrowq

/-- Claim C4, witness: a failing solver yields no output on a concrete
grid; a succeeding solver yields a populated output. -/
theorem gridEval_contract_witness :
    gridEval solverFail 1 fpW gW [0] [0] = none ∧
    (gridEval solverC 1 fpW gW [0] [0]).isSome = true := by
  constructor
  · exact (gridEval_contract solverFail 1 fpW gW [0] [0]).1
      ⟨0, by simp, 0, by simp, one_ne_zero⟩
  · obtain ⟨out, hout, -, -⟩ :=
      (gridEval_contract solverC 1 fpW gW [0] [0]).2
        (fun px hpx py hpy => rfl)
    rw [hout]
    rfl

/-- Claim C9: for a fault with zero slip the decomposed slip components are
both zero, the solver is therefore invoked with the zero dislocation
vector at every grid point, and assuming the solver maps zero dislocation
to zero displacement, every stored cell of the output field is zero. -/
theorem zero_slip_field (solver : Solver) (alpha : ℝ) (fp : FaultParams)
    (g : Geometry) (xgrid ygrid : List ℝ) (out : List (List (ℝ × ℝ × ℝ)))
    (row : List (ℝ × ℝ × ℝ)) (c : ℝ × ℝ × ℝ)
    (hslip : fp.slip = 0)
    (hg : normalize fp = some g)
    (hsolver : ∀ a p d dp sr dr, (solver a p d dp sr dr (0, 0, 0)).u = (0, 0, 0))
    (hout : gridEval solver alpha fp g xgrid ygrid = some out)
    (hrow : row ∈ out) (hc : c ∈ row) : c = (0, 0, 0) := by
  have hss : g.ss = 0 ∧ g.ds = 0 := by
    unfold normalize normalizeWith at hg
    cases hq : pydiv fp.cd_depth (Real.tan (radians fp.dip)) with
    | none =>
        rw [hq] at hg
        exact absurd hg (by simp)
    | some rc =>
        rw [hq] at hg
        simp only [Option.some.injEq] at hg
        rw [← hg]
        simp [hslip]
  obtain ⟨px, hpx, hrowq⟩ := mapOption_mem _ hout hrow
  obtain ⟨py, hpy, hcq⟩ := mapOption_mem _ hrowq hc
  have hcall : okadaCall solver alpha fp g px py =
      solver alpha
        ((rotate fp.strike (px - g.xc, py - g.yc)).1,
         (rotate fp.strike (px - g.xc, py - g.yc)).2, 0)
        fp.cd_depth fp.dip
        (-(fp.as_length / 2), fp.as_length / 2)
        (-(fp.dd_width / 2), fp.dd_width / 2)
        ((0 : ℝ), (0 : ℝ), (0 : ℝ)) := by
    unfold okadaCall
    rw [hss.1, hss.2]
  unfold evalPoint at hcq
  rw [hcall, hsolver] at hcq
  split at hcq
  · simp only [Option.some.injEq] at hcq
    rw [← hcq]
    unfold backRotate
    norm_num
  · exact absurd hcq (by simp)

/-- Claim C3: each cell of `ULOS` is the dot product of the displacement
components with the pointing vector; in particular, on a field whose
cells are `(1, 0, 0)` the line-of-sight value is `px`. -/
theorem ulos_cell (UX UY UZ : List (List ℝ)) (p : ℝ × ℝ × ℝ) (i j : ℕ)
    (hY : UY.length = UX.length) (hZ : UZ.length = UX.length)
    (hi : i < UX.length)
    (hrY : (UY.getD i []).length = (UX.getD i []).length)
    (hrZ : (UZ.getD i []).length = (UX.getD i []).length)
    (hj : j < (UX.getD i []).length) :
    ((ulosGrid UX UY UZ p).getD i []).getD j 0 =
      (UX.getD i []).getD j 0 * p.1 + (UY.getD i []).getD j 0 * p.2.1 +
        (UZ.getD i []).getD j 0 * p.2.2 ∧
    ((UX.getD i []).getD j 0 = 1 → (UY.getD i []).getD j 0 = 0 →
      (UZ.getD i []).getD j 0 = 0 →
      ((ulosGrid UX UY UZ p).getD i []).getD j 0 = p.1) := by
  obtain ⟨p1, p2, p3⟩ := p
  have hmain : ((ulosGrid UX UY UZ (p1, p2, p3)).getD i []).getD j 0 =
      (UX.getD i []).getD j 0 * p1 + (UY.getD i []).getD j 0 * p2 +
        (UZ.getD i []).getD j 0 * p3 := by
    rw [ulos_grid_row UX UY UZ p1 p2 p3 i hY hZ hi]
    exact ulos_row (UX.getD i []) (UY.getD i []) (UZ.getD i []) p1 p2 p3 j hrY hrZ hj
  refine ⟨hmain, fun h1 h2 h3 => ?_⟩
  rw [hmain, h1, h2, h3]
  ring

/-- Claim C3, witness: a one-cell grid with displacement `(1, 0, 0)` and
the notebook's pointing vector. -/
theorem ulos_cell_witness :
    ((ulosGrid [[1]] [[0]] [[0]] (p_vec 39 (-260))).getD 0 []).getD 0 0 =
      ([[(1 : ℝ)]].getD 0 []).getD 0 0 * (p_vec 39 (-260)).1 +
        ([[(0 : ℝ)]].getD 0 []).getD 0 0 * (p_vec 39 (-260)).2.1 +
        ([[(0 : ℝ)]].getD 0 []).getD 0 0 * (p_vec 39 (-260)).2.2 ∧
    (([[(1 : ℝ)]].getD 0 []).getD 0 0 = 1 →
      ([[(0 : ℝ)]].getD 0 []).getD 0 0 = 0 →
      ([[(0 : ℝ)]].getD 0 []).getD 0 0 = 0 →
      ((ulosGrid [[1]] [[0]] [[0]] (p_vec 39 (-260))).getD 0 []).getD 0 0 =
        (p_vec 39 (-260)).1) :=
  ulos_cell [[1]] [[0]] [[0]] (p_vec 39 (-260)) 0 0 rfl rfl (by simp) rfl rfl (by simp)

/-- Claim C9, witness: the zero solver on the zero-slip fault `fpW`
produces a concrete grid whose only cell is zero. -/
theorem zero_slip_field_witness :
    gridEval solverZ 1 fpW gW [0] [0] = some [[wcell]] ∧ wcell = (0, 0, 0) := by
  have hout : gridEval solverZ 1 fpW gW [0] [0] = some [[wcell]] := rfl
  refine ⟨hout, ?_⟩
  exact zero_slip_field solverZ 1 fpW gW [0] [0] [[wcell]] [wcell] wcell rfl
    normalize_fpW (fun a p d dp sr dr => rfl) hout (by simp) (by simp)

/-- Claim C5, counterexample: for the reference inputs the centroid does
not lie near (-524.94, 9.16): normalization yields a centroid with a
positive x coordinate and a negative y coordinate, the opposite signs of
the claimed values. -/
theorem ref_centroid_sign_counterexample :
    normalize fpRef = some gRef ∧ 0 < gRef.xc ∧ gRef.yc < 0 := by
  have hx := xc_bounds
  have hy := yc_bounds
  exact ⟨normalize_fpRef, by linarith [hx.1], by linarith [hy.2]⟩

/-- Claim C5, amended: for the reference inputs the geometry stage
produces centroid approximately (+524.85, -9.16, 6000) - the signs of the
claimed horizontal coordinates are flipped - with strike-slip
approximately 1.9997 and dip-slip approximately -0.0349 as claimed. -/
theorem ref_geometry_values :
    normalize fpRef = some gRef ∧
    (524.7 < gRef.xc ∧ gRef.xc < 525) ∧
    (-9.17 < gRef.yc ∧ gRef.yc < -9.15) ∧
    fpRef.cd_depth = 6000 ∧
    (1.9996 < gRef.ss ∧ gRef.ss < 1.9998) ∧
    (-0.03491 < gRef.ds ∧ gRef.ds < -0.03490) :=
  ⟨normalize_fpRef, xc_bounds, yc_bounds, rfl, ss_bounds, ds_bounds⟩

end Okada
